import Mathlib

/-!
Shallow embedding of the Simple Notes API backend
(`src/notes_backend/src/api/{main,models,schemas,database}.py`).

The service is a FastAPI app over SQLAlchemy with a SQLite store.  We embed:

* the `Note` row (`models.py`), with timestamps as abstract logical UTC
  instants (`Nat`); each handler receives the current instant `now` as an
  explicit argument, standing for the `utcnow()` column defaults;
* the store as the list of live rows in insertion order; SQLite assigns a new
  `INTEGER PRIMARY KEY` as one more than the largest id currently in the
  table (the column is declared without `AUTOINCREMENT`);
* SQL `ILIKE` pattern matching (`%`/`_` wildcards, ASCII case folding) for
  the search filter `title ILIKE '%q%' OR content ILIKE '%q%'`;
* `ORDER BY created_at DESC` as a stable descending sort on `created_at`
  (SQLite returns tied rows of this query in storage order);
* pydantic validation of `NoteCreate` / `NoteUpdate` (`schemas.py`) and the
  FastAPI `Query(ge=1, le=100)` parameter checks, which run before the
  handler body;
* storage failure (`SQLAlchemyError`) as an explicit `fail` flag on each
  handler that touches the store inside `try/except`.

Handlers return `Except ErrResp v × Store`: the HTTP outcome together with
the store state after the request.
-/

deriving instance DecidableEq for Except

namespace NotesApp

/-- A persisted note row (`models.py`, class `Note`).  Timestamps are
abstract UTC instants modelled as `Nat`. -/
structure Note where
  id : Nat
  title : String
  content : String
  created_at : Nat
  updated_at : Nat
deriving Repr, DecidableEq

/-- The notes table: live rows in insertion order. -/
abbrev Store := List Note

/-- An HTTP error response: status code and the `detail` string used by the
handler (`HTTPException(status_code=..., detail=...)`). -/
structure ErrResp where
  status : Nat
  detail : String
deriving Repr, DecidableEq

/-- SQLite id assignment for an `INTEGER PRIMARY KEY` column declared
without `AUTOINCREMENT`: one more than the largest id currently in the
table (1 on an empty table).  Ids of deleted rows can therefore be handed
out again once the largest row is gone. -/
def nextId (s : Store) : Nat := (s.map Note.id).foldr max 0 + 1

/-- ASCII case folding, applied to both pattern and text by `ILIKE`. -/
def lower (l : List Char) : List Char := l.map Char.toLower

/-- SQL `LIKE` matching on char lists: `%` matches any (possibly empty)
sequence of characters (so the rest of the pattern may match any suffix of
the text), `_` matches exactly one character, anything else matches
itself. -/
def likeMatch : List Char → List Char → Bool
  | [], t => t.isEmpty
  | c :: p, t =>
    if c = '%' then t.tails.any (fun u => likeMatch p u)
    else if c = '_' then
      match t with
      | [] => false
      | _ :: t => likeMatch p t
    else
      match t with
      | [] => false
      | d :: t => c == d && likeMatch p t

/-- `a ILIKE pattern`: case-insensitive `LIKE` (SQLAlchemy `ilike`). -/
def ilike (pattern text : String) : Bool :=
  likeMatch (lower pattern.data) (lower text.data)

/-- The search filter of `list_notes`: with `like = f"%{q}%"`,
`Note.title.ilike(like) OR Note.content.ilike(like)`. -/
def matchesQuery (q : String) (n : Note) : Bool :=
  ilike ("%" ++ q ++ "%") n.title || ilike ("%" ++ q ++ "%") n.content

/-- Insert a note into a list sorted by `created_at` descending, before the
first row whose `created_at` is not larger — so rows with equal
`created_at` keep their original relative order. -/
def insertDesc (n : Note) : List Note → List Note
  | [] => [n]
  | m :: ms =>
    if m.created_at ≤ n.created_at then n :: m :: ms else m :: insertDesc n ms

/-- `ORDER BY created_at DESC` over the rows in storage order: a stable
descending sort on `created_at`. -/
def sortDesc : List Note → List Note
  | [] => []
  | n :: ns => insertDesc n (sortDesc ns)

/-- The `WHERE` clause of `list_notes`: applied only when `q` is present and
non-empty (`if q:` in Python is false for `None` and for `""`). -/
def applyQuery (q : Option String) (s : Store) : List Note :=
  match q with
  | none => s
  | some qs => if qs.isEmpty then s else s.filter (matchesQuery qs)

/-- pydantic validation of `NoteCreate` (`schemas.py`):
`title: Field(min_length=1, max_length=255)`, `content: Field(min_length=1)`,
on raw (untrimmed) lengths.  Returns the offending field's name on
failure (pydantic reports `loc = ("body", <field>)`). -/
def validateNoteCreate (title content : String) : Option String :=
  if title.length < 1 then some "title"
  else if 255 < title.length then some "title"
  else if content.length < 1 then some "content"
  else none

/-- pydantic validation of `NoteUpdate` (`schemas.py`): each *present* field
must satisfy the same length bounds; both may be absent. -/
def validateNoteUpdate (title content : Option String) : Bool :=
  (match title with
   | none => true
   | some t => 1 ≤ t.length && t.length ≤ 255) &&
  (match content with
   | none => true
   | some c => 1 ≤ c.length)

/-- `GET /` (`health_check` in `main.py`): returns constant service
metadata.  The handler takes no `db` dependency; we thread the store state
through unchanged to express that it is neither read nor written. -/
structure HealthResponse where
  status : String
  service : String
  version : String
deriving Repr, DecidableEq

def health_check (s : Store) : HealthResponse × Store :=
  (⟨"ok", "Simple Notes API", "0.1.0"⟩, s)

/-- `POST /notes` (`create_note` in `main.py`).  pydantic validates the
payload before the handler runs; the handler inserts a row whose two
timestamp columns both default to the current UTC instant `now`, commits,
and on `SQLAlchemyError` (`fail = true`) rolls back and returns a generic
500. -/
def create_note (title content : String) (now : Nat) (fail : Bool)
    (s : Store) : Except ErrResp Note × Store :=
  match validateNoteCreate title content with
  | some field => (.error ⟨422, field⟩, s)
  | none =>
    if fail then (.error ⟨500, "Failed to create note"⟩, s)
    else
      let n : Note := ⟨nextId s, title, content, now, now⟩
      (.ok n, s ++ [n])

/-- `GET /notes` (`list_notes` in `main.py`).  FastAPI rejects
`page < 1`, `page_size < 1` or `page_size > 100` with a 422 before the
handler body; the handler then selects with the optional search filter,
orders by `created_at` descending, and applies
`OFFSET (page-1)*page_size LIMIT page_size`.  A read failure becomes a
generic 500. -/
def list_notes (page page_size : Nat) (q : Option String) (fail : Bool)
    (s : Store) : Except ErrResp (List Note) :=
  if page < 1 ∨ page_size < 1 ∨ 100 < page_size then
    .error ⟨422, "query parameter out of range"⟩
  else if fail then .error ⟨500, "Failed to fetch notes"⟩
  else
    .ok (((sortDesc (applyQuery q s)).drop ((page - 1) * page_size)).take
      page_size)

/-- `GET /notes/{note_id}` (`get_note` in `main.py`). -/
def get_note (id : Nat) (s : Store) : Except ErrResp Note :=
  match s.find? (fun n => n.id == id) with
  | none => .error ⟨404, "Note not found"⟩
  | some n => .ok n

/-- `PUT /notes/{note_id}` (`update_note` in `main.py`).  The handler first
does `db.get` (a store read) and returns 404 on a missing row; only then
does it check that at least one field was supplied, returning 400
otherwise.  Supplied fields overwrite the row's fields; the commit fires
the `onupdate=utcnow` default for `updated_at`.  On `SQLAlchemyError`
(`fail = true`) it rolls back and returns a generic 500. -/
def update_note (id : Nat) (title content : Option String) (now : Nat)
    (fail : Bool) (s : Store) : Except ErrResp Note × Store :=
  if !validateNoteUpdate title content then
    (.error ⟨422, "field constraint violated"⟩, s)
  else
    match s.find? (fun n => n.id == id) with
    | none => (.error ⟨404, "Note not found"⟩, s)
    | some n =>
      if title.isNone && content.isNone then
        (.error ⟨400, "At least one of title or content must be provided"⟩, s)
      else if fail then (.error ⟨500, "Failed to update note"⟩, s)
      else
        let n' : Note :=
          { n with
            title := title.getD n.title
            content := content.getD n.content
            updated_at := now }
        (.ok n', s.map (fun m => if m.id == n.id then n' else m))

/-- `DELETE /notes/{note_id}` (`delete_note` in `main.py`): 404 when the
row is absent, otherwise hard delete; on `SQLAlchemyError` (`fail = true`)
rolls back and returns a generic 500. -/
def delete_note (id : Nat) (fail : Bool) (s : Store) :
    Except ErrResp Unit × Store :=
  match s.find? (fun n => n.id == id) with
  | none => (.error ⟨404, "Note not found"⟩, s)
  | some _ =>
    if fail then (.error ⟨500, "Failed to delete note"⟩, s)
    else (.ok (), s.filter (fun n => n.id != id))

/-! ### Definitions following the spec's words (for comparison) -/

/-- Spec-words definition: `q` occurs in `text` as a case-insensitive
substring. -/
def containsCI (q text : String) : Prop :=
  lower q.data <:+: lower text.data

instance (q text : String) : Decidable (containsCI q text) := by
  unfold containsCI; infer_instance

/-- Spec-words definition: the note's title or content contains `q` as a
case-insensitive substring. -/
def specMatches (q : String) (n : Note) : Prop :=
  containsCI q n.title ∨ containsCI q n.content

instance (q : String) (n : Note) : Decidable (specMatches q n) := by
  unfold specMatches; infer_instance

/-- Spec-words definition: the length of a string after stripping leading
and trailing whitespace ("trimmed length"). -/
def trimmedLength (s : String) : Nat :=
  ((s.data.dropWhile Char.isWhitespace).reverse.dropWhile
    Char.isWhitespace).length

/-- The wildcard characters of SQL `LIKE`. -/
def noWildcard (l : List Char) : Prop := ∀ c ∈ l, c ≠ '%' ∧ c ≠ '_'

instance (l : List Char) : Decidable (noWildcard l) := by
  unfold noWildcard; infer_instance

/-! ### Properties of the stable descending sort -/

theorem insertDesc_perm (n : Note) (l : List Note) :
    List.Perm (insertDesc n l) (n :: l) := by
  induction l with
  | nil => exact List.Perm.refl _
  | cons m ms ih =>
    simp only [insertDesc]
    split
    · exact List.Perm.refl _
    · exact (ih.cons m).trans (List.Perm.swap n m ms)

theorem sortDesc_perm (l : List Note) : List.Perm (sortDesc l) l := by
  induction l with
  | nil => exact List.Perm.refl _
  | cons n ns ih => exact (insertDesc_perm n (sortDesc ns)).trans (ih.cons n)

theorem insertDesc_pairwise {n : Note} {l : List Note}
    (h : l.Pairwise (fun a b => b.created_at ≤ a.created_at)) :
    (insertDesc n l).Pairwise (fun a b => b.created_at ≤ a.created_at) := by
  induction l with
  | nil => simp [insertDesc]
  | cons m ms ih =>
    rw [List.pairwise_cons] at h
    obtain ⟨hm, hms⟩ := h
    simp only [insertDesc]
    split
    · rename_i hle
      refine List.pairwise_cons.mpr ⟨?_, List.pairwise_cons.mpr ⟨hm, hms⟩⟩
      intro x hx
      rcases List.mem_cons.mp hx with rfl | hx'
      · exact hle
      · exact le_trans (hm x hx') hle
    · rename_i hgt
      refine List.pairwise_cons.mpr ⟨?_, ih hms⟩
      intro x hx
      rcases List.mem_cons.mp ((insertDesc_perm n ms).mem_iff.mp hx) with rfl | hx'
      · exact Nat.le_of_not_le hgt
      · exact hm x hx'

theorem sortDesc_pairwise (l : List Note) :
    (sortDesc l).Pairwise (fun a b => b.created_at ≤ a.created_at) := by
  induction l with
  | nil => simp [sortDesc]
  | cons n ns ih => exact insertDesc_pairwise ih

/-- Stability of the insertion step: rows with any fixed `created_at` value
keep their relative order (`n` is inserted before every row it ties
with). -/
theorem filter_insertDesc (t : Nat) (n : Note) (l : List Note) :
    (insertDesc n l).filter (fun m => m.created_at == t) =
      ((n :: l).filter (fun m => m.created_at == t)) := by
  induction l with
  | nil => rfl
  | cons m ms ih =>
    simp only [insertDesc]
    split
    · rfl
    · rename_i hgt
      rw [List.filter_cons, List.filter_cons, List.filter_cons, ih,
        List.filter_cons]
      by_cases hn : n.created_at = t
      · have hm : ¬ (m.created_at == t) = true := by
          simp only [beq_iff_eq]; omega
        simp [hm, hn]
      · simp only [beq_iff_eq, hn]
        split <;> simp

/-- Stability of the sort: for every timestamp `t`, the rows created at `t`
appear in the sorted output exactly in their original (insertion) order. -/
theorem filter_sortDesc (t : Nat) (l : List Note) :
    (sortDesc l).filter (fun m => m.created_at == t) =
      l.filter (fun m => m.created_at == t) := by
  induction l with
  | nil => rfl
  | cons n ns ih =>
    rw [sortDesc, filter_insertDesc, List.filter_cons, List.filter_cons, ih]

/-! ### Semantics of `LIKE '%q%'` for wildcard-free `q` -/

theorem toLower_wildcard (c : Char) (h1 : c ≠ '%') (h2 : c ≠ '_') :
    Char.toLower c ≠ '%' ∧ Char.toLower c ≠ '_' := by
  have hdef : Char.toLower c =
      if c.toNat ≥ 65 ∧ c.toNat ≤ 90 then Char.ofNat (c.toNat + 32) else c :=
    rfl
  by_cases hc : c.toNat ≥ 65 ∧ c.toNat ≤ 90
  · obtain ⟨h65, h90⟩ := hc
    rw [hdef, if_pos ⟨h65, h90⟩]
    have hval : (Char.ofNat (c.toNat + 32)).toNat = c.toNat + 32 := by
      have hv : (c.toNat + 32).isValidChar := by left; omega
      simp only [Char.toNat, UInt32.toNat] at hv ⊢
      simp only [Char.ofNat, dif_pos hv, Char.ofNatAux]
      rfl
    have hp : ('%').toNat = 37 := rfl
    have hu : ('_').toNat = 95 := rfl
    constructor <;> intro heq <;>
      (have h' := congrArg Char.toNat heq; rw [hval] at h'; omega)
  · rw [hdef, if_neg hc]
    exact ⟨h1, h2⟩

/-- ASCII case folding introduces no `LIKE` wildcard characters. -/
theorem noWildcard_lower {l : List Char} (h : noWildcard l) :
    noWildcard (lower l) := by
  intro c hc
  simp only [lower, List.mem_map] at hc
  obtain ⟨d, hd, rfl⟩ := hc
  exact toLower_wildcard d (h d hd).1 (h d hd).2

/-- Unfolding the `%` head of a `LIKE` pattern: the rest may match any
suffix of the text. -/
theorem likeMatch_percent_cons (p t : List Char) :
    likeMatch ('%' :: p) t = t.tails.any (fun u => likeMatch p u) := by
  simp [likeMatch]

/-- A wildcard-free pattern followed by `%` matches exactly the texts it is
a prefix of. -/
theorem likeMatch_append_percent {qc : List Char} (hw : noWildcard qc) :
    ∀ t : List Char, (likeMatch (qc ++ ['%']) t = true ↔ qc <+: t) := by
  induction qc with
  | nil =>
    intro t
    simp only [List.nil_append]
    constructor
    · intro _
      exact List.nil_prefix
    · intro _
      rw [likeMatch_percent_cons, List.any_eq_true]
      exact ⟨[], (List.mem_tails _ _).mpr List.nil_suffix, rfl⟩
  | cons c qc ih =>
    have hc := hw c (List.mem_cons_self c qc)
    have hw' : noWildcard qc := fun x hx => hw x (List.mem_cons_of_mem c hx)
    intro t
    cases t with
    | nil =>
      simp only [List.cons_append, likeMatch, if_neg hc.1, if_neg hc.2]
      simp
    | cons d t =>
      simp only [List.cons_append, likeMatch, if_neg hc.1, if_neg hc.2,
        Bool.and_eq_true, beq_iff_eq, List.cons_prefix_cons, List.append_eq]
      rw [ih hw' t]

/-- For wildcard-free `qc`, the pattern `'%' ++ qc ++ '%'` matches exactly
the texts containing `qc` as a contiguous substring. -/
theorem likeMatch_substring {qc : List Char} (hw : noWildcard qc)
    (t : List Char) :
    (likeMatch ('%' :: (qc ++ ['%'])) t = true ↔ qc <:+: t) := by
  rw [likeMatch_percent_cons, List.any_eq_true]
  constructor
  · rintro ⟨u, hu, hm⟩
    exact List.infix_iff_prefix_suffix.mpr
      ⟨u, (likeMatch_append_percent hw u).mp hm, (List.mem_tails _ _).mp hu⟩
  · intro h
    obtain ⟨u, hpre, hsuf⟩ := List.infix_iff_prefix_suffix.mp h
    exact ⟨u, (List.mem_tails _ _).mpr hsuf,
      (likeMatch_append_percent hw u).mpr hpre⟩

/-- The case-folded data of the pattern `f"%{q}%"`. -/
theorem lower_pattern (q : String) :
    lower ("%" ++ q ++ "%").data = '%' :: (lower q.data ++ ['%']) := by
  have h1 : ("%" ++ q ++ "%").data = '%' :: q.data ++ ['%'] := by
    rw [String.data_append, String.data_append]
    rfl
  rw [h1]
  simp [lower]

/-- For `q` without `LIKE` wildcards, the code's search predicate agrees
with the spec's "title or content contains `q` as a case-insensitive
substring". -/
theorem matchesQuery_iff {q : String} (hw : noWildcard q.data) (n : Note) :
    (matchesQuery q n = true ↔ specMatches q n) := by
  unfold matchesQuery specMatches containsCI ilike
  rw [lower_pattern]
  simp only [Bool.or_eq_true]
  rw [likeMatch_substring (noWildcard_lower hw),
    likeMatch_substring (noWildcard_lower hw)]

/-- The empty query matches every note under the spec's reading. -/
theorem specMatches_empty (n : Note) : specMatches "" n :=
  Or.inl List.nil_infix

/-! ### Helper facts about the handlers -/

theorem le_foldr_max {x : Nat} {l : List Nat} (h : x ∈ l) :
    x ≤ l.foldr max 0 := by
  induction l with
  | nil => cases h
  | cons a l ih =>
    rcases List.mem_cons.mp h with rfl | h'
    · exact Nat.le_max_left x (l.foldr max 0)
    · exact Nat.le_trans (ih h') (Nat.le_max_right a (l.foldr max 0))

/-- The id SQLite assigns to a fresh row is larger than every live id. -/
theorem nextId_gt {s : Store} {n : Note} (h : n ∈ s) : n.id < nextId s :=
  Nat.lt_succ_of_le (le_foldr_max (List.mem_map_of_mem Note.id h))

theorem validateNoteCreate_none {title content : String}
    (h : validateNoteCreate title content = none) :
    1 ≤ title.length ∧ title.length ≤ 255 ∧ 1 ≤ content.length := by
  unfold validateNoteCreate at h
  split_ifs at h with h1 h2 h3
  omega

theorem validateNoteUpdate_some_title {title : String}
    {content : Option String}
    (h : validateNoteUpdate (some title) content = true) :
    1 ≤ title.length ∧ title.length ≤ 255 := by
  unfold validateNoteUpdate at h
  simp only [Bool.and_eq_true, decide_eq_true_eq] at h
  exact h.1

theorem validateNoteUpdate_some_content {title : Option String}
    {content : String}
    (h : validateNoteUpdate title (some content) = true) :
    1 ≤ content.length := by
  unfold validateNoteUpdate at h
  simp only [Bool.and_eq_true, decide_eq_true_eq] at h
  exact h.2

theorem ne_empty_of_length_pos {s : String} (h : 1 ≤ s.length) : s ≠ "" := by
  intro heq
  rw [heq] at h
  exact absurd h (by decide)

/-- The rows surviving the `WHERE` clause are a sublist of the table. -/
theorem applyQuery_sublist (q : Option String) (s : Store) :
    (applyQuery q s).Sublist s := by
  unfold applyQuery
  match q with
  | none => exact List.Sublist.refl s
  | some qs =>
    show (if qs.isEmpty = true then s else s.filter (matchesQuery qs)).Sublist s
    by_cases h : qs.isEmpty = true
    · rw [if_pos h]
    · rw [if_neg h]
      exact List.filter_sublist s

/-- On in-range parameters, `list_notes` serves the window at offset
`(page-1) * page_size` of the sorted, filtered rows. -/
theorem list_notes_ok {page page_size : Nat} (q : Option String) (s : Store)
    (h1 : 1 ≤ page) (h2 : 1 ≤ page_size) (h3 : page_size ≤ 100) :
    list_notes page page_size q false s =
      .ok (((sortDesc (applyQuery q s)).drop
        ((page - 1) * page_size)).take page_size) := by
  unfold list_notes
  rw [if_neg (by omega)]
  simp

theorem list_notes_ok_inv {page page_size : Nat} {q : Option String}
    {s : Store} {r : List Note}
    (h : list_notes page page_size q false s = .ok r) :
    1 ≤ page ∧ 1 ≤ page_size ∧ page_size ≤ 100 ∧
      r = ((sortDesc (applyQuery q s)).drop
        ((page - 1) * page_size)).take page_size := by
  unfold list_notes at h
  by_cases hc : page < 1 ∨ page_size < 1 ∨ 100 < page_size
  · rw [if_pos hc] at h
    cases h
  · rw [if_neg hc] at h
    simp only [Bool.false_eq_true, if_false, Except.ok.injEq] at h
    push_neg at hc
    exact ⟨by omega, by omega, by omega, h.symm⟩

/-- Every member of a list appears on some 1-based page of size `k`. -/
theorem mem_page (k : Nat) (hk : 1 ≤ k) (l : List Note) (n : Note)
    (h : n ∈ l) :
    ∃ p, 1 ≤ p ∧ n ∈ (l.drop ((p - 1) * k)).take k := by
  by_cases hcase : n ∈ l.take k
  · exact ⟨1, Nat.le_refl 1, by simpa using hcase⟩
  · have hsplit : n ∈ l.take k ++ l.drop k := by
      rw [List.take_append_drop]
      exact h
    have hl : n ∈ l.drop k := by
      rcases List.mem_append.mp hsplit with h' | h'
      · exact absurd h' hcase
      · exact h'
    obtain ⟨p, hp, hmem⟩ := mem_page k hk (l.drop k) n hl
    obtain ⟨p', rfl⟩ : ∃ p', p = p' + 1 := ⟨p - 1, by omega⟩
    refine ⟨p' + 2, by omega, ?_⟩
    rw [List.drop_drop] at hmem
    have harith : k + (p' + 1 - 1) * k = (p' + 2 - 1) * k := by
      simp [Nat.succ_mul]
      omega
    rw [harith] at hmem
    exact hmem
termination_by l.length
decreasing_by
  have h0 : 0 < l.length := List.length_pos_of_mem h
  rw [List.length_drop]
  omega

/-- Successful create: the persisted row carries the SQLite-assigned id and
both timestamps set to the current instant. -/
theorem create_note_ok {title content : String} {now : Nat} {s : Store}
    (hv : validateNoteCreate title content = none) :
    create_note title content now false s =
      (.ok ⟨nextId s, title, content, now, now⟩,
       s ++ [⟨nextId s, title, content, now, now⟩]) := by
  unfold create_note
  rw [hv]
  rfl

/-- Behaviour of `update_note` once `db.get` found the row. -/
theorem update_note_found {id : Nat} {t c : Option String} {now : Nat}
    {fail : Bool} {s : Store} {m0 : Note}
    (hv : validateNoteUpdate t c = true)
    (hfind : s.find? (fun m => m.id == id) = some m0) :
    update_note id t c now fail s =
      if (t.isNone && c.isNone) = true then
        (.error ⟨400, "At least one of title or content must be provided"⟩,
         s)
      else if fail = true then
        (.error ⟨500, "Failed to update note"⟩, s)
      else
        (.ok ⟨m0.id, t.getD m0.title, c.getD m0.content, m0.created_at,
          now⟩,
         s.map (fun m => if m.id == m0.id then
           ⟨m0.id, t.getD m0.title, c.getD m0.content, m0.created_at, now⟩
           else m)) := by
  unfold update_note
  rw [hv]
  simp only [Bool.not_true, Bool.false_eq_true, if_false]
  rw [hfind]

/-- Behaviour of `delete_note` once `db.get` found the row. -/
theorem delete_note_found {id : Nat} {fail : Bool} {s : Store} {m0 : Note}
    (hfind : s.find? (fun m => m.id == id) = some m0) :
    delete_note id fail s =
      if fail = true then (.error ⟨500, "Failed to delete note"⟩, s)
      else (.ok (), s.filter (fun n => n.id != id)) := by
  unfold delete_note
  rw [hfind]

/-! ### Claim theorems -/

/-- C10: the health endpoint is deterministic and independent of the notes
store: for any two store states it returns the identical response with
status "ok", service "Simple Notes API" and version "0.1.0", and it
neither reads nor modifies the store. -/
theorem C10_health (s₁ s₂ : Store) :
    (health_check s₁).1 = (health_check s₂).1 ∧
    (health_check s₁).1 = ⟨"ok", "Simple Notes API", "0.1.0"⟩ ∧
    (health_check s₁).2 = s₁ ∧ (health_check s₂).2 = s₂ :=
  ⟨rfl, rfl, rfl, rfl⟩

/-- C3 counterexample: an update payload with both fields absent against a
non-existent id (id 1 on the empty store) yields 404 Not Found — the
existence check runs before the at-least-one-field validation — not the
claimed 400 validation error. -/
theorem C3_counterexample :
    update_note 1 none none 5 false [] =
      (.error ⟨404, "Note not found"⟩, ([] : Store)) ∧
    (404 : Nat) ≠ 400 := by decide

/-- C3 (amended): the handler reads the store before validating the
payload, so with both fields absent an *existing* id yields the 400
"at least one field required" error while a missing id yields 404; in
every case the store is left unchanged (no write occurs). -/
theorem C3_update_validation (id now : Nat) (fail : Bool) (s : Store) :
    (update_note id none none now fail s).2 = s ∧
    (∀ n, s.find? (fun m => m.id == id) = some n →
      (update_note id none none now fail s).1 =
        .error ⟨400, "At least one of title or content must be provided"⟩) ∧
    (s.find? (fun m => m.id == id) = none →
      (update_note id none none now fail s).1 =
        .error ⟨404, "Note not found"⟩) := by
  have hv : validateNoteUpdate none none = true := rfl
  unfold update_note
  rw [hv]
  simp only [Bool.not_true, Bool.false_eq_true, if_false]
  cases hfind : s.find? (fun m => m.id == id) with
  | none => simp
  | some n => simp

theorem C3_update_validation_witness :
    (update_note 1 none none 5 false [⟨1, "a", "b", 0, 0⟩]).2 =
      [⟨1, "a", "b", 0, 0⟩] ∧
    (update_note 1 none none 5 false [⟨1, "a", "b", 0, 0⟩]).1 =
      .error ⟨400, "At least one of title or content must be provided"⟩ :=
  ⟨(C3_update_validation 1 5 false [⟨1, "a", "b", 0, 0⟩]).1,
   (C3_update_validation 1 5 false [⟨1, "a", "b", 0, 0⟩]).2.1
     ⟨1, "a", "b", 0, 0⟩ (by decide)⟩

/-- C4 counterexample: a request with `page_size = 0` (or `101`) is
rejected with a 422 validation error rather than served with the nearest
bound — serving with the clamped size 1 would have returned the shown
`.ok` result. -/
theorem C4_counterexample :
    list_notes 1 0 none false [⟨1, "a", "b", 0, 0⟩] =
      .error ⟨422, "query parameter out of range"⟩ ∧
    list_notes 1 101 none false [⟨1, "a", "b", 0, 0⟩] =
      .error ⟨422, "query parameter out of range"⟩ ∧
    list_notes 1 1 none false [⟨1, "a", "b", 0, 0⟩] =
      .ok [⟨1, "a", "b", 0, 0⟩] := by decide

/-- C4 (amended): `page` and `page_size` outside `page ≥ 1`,
`1 ≤ page_size ≤ 100` are rejected with a validation error (not clamped);
for accepted parameters the served window starts at offset
`(page-1) * page_size`, and a page beyond the available rows yields the
empty list, never an error. -/
theorem C4_pagination (page page_size : Nat) (q : Option String) (s : Store)
    (h1 : 1 ≤ page) (h2 : 1 ≤ page_size) (h3 : page_size ≤ 100) :
    list_notes page page_size q false s =
      .ok (((sortDesc (applyQuery q s)).drop
        ((page - 1) * page_size)).take page_size) ∧
    ((sortDesc (applyQuery q s)).length ≤ (page - 1) * page_size →
      list_notes page page_size q false s = .ok []) ∧
    (∀ p k : Nat, p < 1 ∨ k < 1 ∨ 100 < k →
      list_notes p k q false s =
        .error ⟨422, "query parameter out of range"⟩) := by
  refine ⟨list_notes_ok q s h1 h2 h3, ?_, ?_⟩
  · intro hlen
    rw [list_notes_ok q s h1 h2 h3, List.drop_eq_nil_of_le hlen]
    simp
  · intro p k hpk
    unfold list_notes
    rw [if_pos hpk]

theorem C4_pagination_witness :
    (list_notes 9 7 none false [⟨1, "a", "b", 0, 0⟩] =
      .ok (((sortDesc (applyQuery none [⟨1, "a", "b", 0, 0⟩])).drop
        ((9 - 1) * 7)).take 7)) ∧
    (((sortDesc (applyQuery none [⟨1, "a", "b", 0, 0⟩])).length ≤
        (9 - 1) * 7 →
      list_notes 9 7 none false [⟨1, "a", "b", 0, 0⟩] = .ok [])) ∧
    (∀ p k : Nat, p < 1 ∨ k < 1 ∨ 100 < k →
      list_notes p k none false [⟨1, "a", "b", 0, 0⟩] =
        .error ⟨422, "query parameter out of range"⟩) :=
  C4_pagination 9 7 none [⟨1, "a", "b", 0, 0⟩]
    (by decide) (by decide) (by decide)

/-- C8 counterexample: ids are reused after deletion.  Creating on the
empty store yields id 1; after deleting that note the next create assigns
id 1 again (SQLite `INTEGER PRIMARY KEY` without `AUTOINCREMENT` assigns
max live id + 1), so the new id equals the id of a previously created,
since-deleted note. -/
theorem C8_counterexample :
    (create_note "a" "b" 0 false []).1 = .ok ⟨1, "a", "b", 0, 0⟩ ∧
    (create_note "a" "b" 0 false []).2 = [⟨1, "a", "b", 0, 0⟩] ∧
    delete_note 1 false [⟨1, "a", "b", 0, 0⟩] = (.ok (), []) ∧
    (create_note "c" "d" 1 false []).1 = .ok ⟨1, "c", "d", 1, 1⟩ := by
  decide

/-- C8 (amended): a successful create returns a persisted note whose
`created_at` equals its `updated_at` (both the current instant) and whose
id differs from the id of every note currently in the store; after a
deletion the freed id of the largest row may be reassigned. -/
theorem C8_create (title content : String) (now : Nat) (s : Store)
    (n : Note)
    (h : (create_note title content now false s).1 = .ok n) :
    n.created_at = now ∧ n.updated_at = now ∧
    n.created_at = n.updated_at ∧
    (∀ m ∈ s, m.id ≠ n.id) ∧
    (create_note title content now false s).2 = s ++ [n] := by
  cases hv : validateNoteCreate title content with
  | some f =>
    unfold create_note at h
    rw [hv] at h
    cases h
  | none =>
    rw [create_note_ok hv] at h ⊢
    simp only [Except.ok.injEq] at h
    subst h
    refine ⟨rfl, rfl, rfl, ?_, rfl⟩
    intro m hm
    exact Nat.ne_of_lt (nextId_gt hm)

theorem C8_create_witness :
    (⟨1, "a", "b", 6, 6⟩ : Note).created_at = 6 ∧
    (⟨1, "a", "b", 6, 6⟩ : Note).updated_at = 6 ∧
    (⟨1, "a", "b", 6, 6⟩ : Note).created_at =
      (⟨1, "a", "b", 6, 6⟩ : Note).updated_at ∧
    (∀ m ∈ ([] : Store), m.id ≠ (⟨1, "a", "b", 6, 6⟩ : Note).id) ∧
    (create_note "a" "b" 6 false []).2 = [] ++ [⟨1, "a", "b", 6, 6⟩] :=
  C8_create "a" "b" 6 [] ⟨1, "a", "b", 6, 6⟩ (by decide)

/-- C9: when the store fails (`SQLAlchemyError`), each write handler
(create, update, delete) leaves the prior store state unchanged (the
transaction is rolled back) and returns HTTP 500 with a fixed generic
detail naming only the operation — never internal exception details. -/
theorem C9_storage_failure (s : Store) (now : Nat) :
    (∀ title content, validateNoteCreate title content = none →
      create_note title content now true s =
        (.error ⟨500, "Failed to create note"⟩, s)) ∧
    (∀ (id : Nat) (title content : Option String) (n : Note),
      validateNoteUpdate title content = true →
      s.find? (fun m => m.id == id) = some n →
      (title.isSome ∨ content.isSome) →
      update_note id title content now true s =
        (.error ⟨500, "Failed to update note"⟩, s)) ∧
    (∀ (id : Nat) (n : Note), s.find? (fun m => m.id == id) = some n →
      delete_note id true s = (.error ⟨500, "Failed to delete note"⟩, s)) := by
  refine ⟨?_, ?_, ?_⟩
  · intro title content hv
    unfold create_note
    rw [hv]
    rfl
  · intro id title content n hv hfind hsome
    unfold update_note
    rw [hv]
    simp only [Bool.not_true, Bool.false_eq_true, if_false]
    rw [hfind]
    have hno : (title.isNone && content.isNone) = false := by
      rcases hsome with h | h <;> cases title <;> cases content <;>
        simp_all
    rw [hno]
    simp
  · intro id n hfind
    unfold delete_note
    rw [hfind]
    rfl

theorem C9_storage_failure_witness :
    create_note "a" "b" 3 true [] =
      (.error ⟨500, "Failed to create note"⟩, []) ∧
    update_note 1 (some "t") none 3 true [⟨1, "a", "b", 0, 0⟩] =
      (.error ⟨500, "Failed to update note"⟩, [⟨1, "a", "b", 0, 0⟩]) ∧
    delete_note 1 true [⟨1, "a", "b", 0, 0⟩] =
      (.error ⟨500, "Failed to delete note"⟩, [⟨1, "a", "b", 0, 0⟩]) :=
  ⟨(C9_storage_failure [] 3).1 "a" "b" (by decide),
   (C9_storage_failure [⟨1, "a", "b", 0, 0⟩] 3).2.1 1 (some "t") none
     ⟨1, "a", "b", 0, 0⟩ (by decide) (by decide) (Or.inl (by decide)),
   (C9_storage_failure [⟨1, "a", "b", 0, 0⟩] 3).2.2 1
     ⟨1, "a", "b", 0, 0⟩ (by decide)⟩

/-- C2: for an existing note and a valid update payload supplying at least
one field, update changes only the supplied fields (an unsupplied field
retains its prior value), sets `updated_at` to the current instant — which
is later than the note's previous `updated_at`, so `updated_at` strictly
increases — and leaves `created_at` and `id` unchanged; other rows of the
store are untouched. -/
theorem C2_update_frame (id : Nat) (title content : Option String)
    (now : Nat) (s : Store) (n : Note)
    (hfind : s.find? (fun m => m.id == id) = some n)
    (hv : validateNoteUpdate title content = true)
    (hsome : title.isSome = true ∨ content.isSome = true)
    (hclock : n.updated_at < now) :
    ∃ n' : Note,
      update_note id title content now false s =
        (.ok n', s.map (fun m => if m.id == n.id then n' else m)) ∧
      n'.id = n.id ∧
      n'.created_at = n.created_at ∧
      n'.updated_at = now ∧
      n.updated_at < n'.updated_at ∧
      n'.title = title.getD n.title ∧
      n'.content = content.getD n.content ∧
      (title = none → n'.title = n.title) ∧
      (content = none → n'.content = n.content) := by
  refine ⟨{ n with
      title := title.getD n.title
      content := content.getD n.content
      updated_at := now }, ?_, rfl, rfl, rfl, hclock, rfl, rfl, ?_, ?_⟩
  · unfold update_note
    rw [hv]
    simp only [Bool.not_true, Bool.false_eq_true, if_false]
    rw [hfind]
    have hno : (title.isNone && content.isNone) = false := by
      rcases hsome with h | h <;> cases title <;> cases content <;>
        simp_all
    rw [hno]
    rfl
  · intro h
    subst h
    rfl
  · intro h
    subst h
    rfl

theorem C2_update_frame_witness :
    ∃ n' : Note,
      update_note 1 (some "t2") none 9 false [⟨1, "t1", "c1", 3, 3⟩] =
        (.ok n', [⟨1, "t1", "c1", 3, 3⟩].map
          (fun m => if m.id == (⟨1, "t1", "c1", 3, 3⟩ : Note).id
            then n' else m)) ∧
      n'.id = (⟨1, "t1", "c1", 3, 3⟩ : Note).id ∧
      n'.created_at = (⟨1, "t1", "c1", 3, 3⟩ : Note).created_at ∧
      n'.updated_at = 9 ∧
      (⟨1, "t1", "c1", 3, 3⟩ : Note).updated_at < n'.updated_at ∧
      n'.title = (some "t2").getD (⟨1, "t1", "c1", 3, 3⟩ : Note).title ∧
      n'.content =
        (none : Option String).getD (⟨1, "t1", "c1", 3, 3⟩ : Note).content ∧
      (some "t2" = none → n'.title = (⟨1, "t1", "c1", 3, 3⟩ : Note).title) ∧
      ((none : Option String) = none →
        n'.content = (⟨1, "t1", "c1", 3, 3⟩ : Note).content) :=
  C2_update_frame 1 (some "t2") none 9 [⟨1, "t1", "c1", 3, 3⟩]
    ⟨1, "t1", "c1", 3, 3⟩ (by decide) (by decide) (Or.inl (by decide))
    (by decide)

/-- C6: with a fixed query, page 1 and page 2 of size 10 are disjoint sets
of notes (given the store's ids are unique, as the primary key guarantees,
and at least 11 notes exist), and their in-order concatenation equals
page 1 of size 20. -/
theorem C6_pagination_algebra (q : Option String) (s : Store)
    (hnd : (s.map Note.id).Nodup) (hlen : 11 ≤ s.length) :
    ∃ l₁ l₂ l : List Note,
      list_notes 1 10 q false s = .ok l₁ ∧
      list_notes 2 10 q false s = .ok l₂ ∧
      list_notes 1 20 q false s = .ok l ∧
      l₁ ++ l₂ = l ∧
      ∀ n ∈ l₁, n ∉ l₂ := by
  refine ⟨(sortDesc (applyQuery q s)).take 10,
    ((sortDesc (applyQuery q s)).drop 10).take 10,
    (sortDesc (applyQuery q s)).take 20, ?_, ?_, ?_, ?_, ?_⟩
  · rw [list_notes_ok q s (by omega) (by omega) (by omega)]
    norm_num
  · rw [list_notes_ok q s (by omega) (by omega) (by omega)]
  · rw [list_notes_ok q s (by omega) (by omega) (by omega)]
    norm_num
  · rw [show (20 : Nat) = 10 + 10 from rfl, List.take_add]
  · have hs : s.Nodup := List.Nodup.of_map Note.id hnd
    have happ : (applyQuery q s).Nodup :=
      List.Nodup.sublist (applyQuery_sublist q s) hs
    have hLnd : (sortDesc (applyQuery q s)).Nodup :=
      (sortDesc_perm (applyQuery q s)).symm.nodup happ
    have hsplit : ((sortDesc (applyQuery q s)).take 10 ++
        (sortDesc (applyQuery q s)).drop 10).Nodup := by
      rw [List.take_append_drop]
      exact hLnd
    have hdisj := List.disjoint_of_nodup_append hsplit
    intro n hn hmem
    exact hdisj hn
      ((List.take_sublist 10 ((sortDesc (applyQuery q s)).drop 10)).subset
        hmem)

theorem C6_pagination_algebra_witness :
    ∃ l₁ l₂ l : List Note,
      list_notes 1 10 none false
        [⟨1, "a", "b", 1, 1⟩, ⟨2, "a", "b", 2, 2⟩, ⟨3, "a", "b", 3, 3⟩,
         ⟨4, "a", "b", 4, 4⟩, ⟨5, "a", "b", 5, 5⟩, ⟨6, "a", "b", 6, 6⟩,
         ⟨7, "a", "b", 7, 7⟩, ⟨8, "a", "b", 8, 8⟩, ⟨9, "a", "b", 9, 9⟩,
         ⟨10, "a", "b", 10, 10⟩, ⟨11, "a", "b", 11, 11⟩] = .ok l₁ ∧
      list_notes 2 10 none false
        [⟨1, "a", "b", 1, 1⟩, ⟨2, "a", "b", 2, 2⟩, ⟨3, "a", "b", 3, 3⟩,
         ⟨4, "a", "b", 4, 4⟩, ⟨5, "a", "b", 5, 5⟩, ⟨6, "a", "b", 6, 6⟩,
         ⟨7, "a", "b", 7, 7⟩, ⟨8, "a", "b", 8, 8⟩, ⟨9, "a", "b", 9, 9⟩,
         ⟨10, "a", "b", 10, 10⟩, ⟨11, "a", "b", 11, 11⟩] = .ok l₂ ∧
      list_notes 1 20 none false
        [⟨1, "a", "b", 1, 1⟩, ⟨2, "a", "b", 2, 2⟩, ⟨3, "a", "b", 3, 3⟩,
         ⟨4, "a", "b", 4, 4⟩, ⟨5, "a", "b", 5, 5⟩, ⟨6, "a", "b", 6, 6⟩,
         ⟨7, "a", "b", 7, 7⟩, ⟨8, "a", "b", 8, 8⟩, ⟨9, "a", "b", 9, 9⟩,
         ⟨10, "a", "b", 10, 10⟩, ⟨11, "a", "b", 11, 11⟩] = .ok l ∧
      l₁ ++ l₂ = l ∧
      ∀ n ∈ l₁, n ∉ l₂ :=
  C6_pagination_algebra none
    [⟨1, "a", "b", 1, 1⟩, ⟨2, "a", "b", 2, 2⟩, ⟨3, "a", "b", 3, 3⟩,
     ⟨4, "a", "b", 4, 4⟩, ⟨5, "a", "b", 5, 5⟩, ⟨6, "a", "b", 6, 6⟩,
     ⟨7, "a", "b", 7, 7⟩, ⟨8, "a", "b", 8, 8⟩, ⟨9, "a", "b", 9, 9⟩,
     ⟨10, "a", "b", 10, 10⟩, ⟨11, "a", "b", 11, 11⟩]
    (by decide) (by decide)

/-- C7: every page served by list is ordered by `created_at` descending,
and notes with equal `created_at` appear in insertion (store) order: for
each timestamp, the served rows with that timestamp form a subsequence of
the store's rows with that timestamp in their original order. -/
theorem C7_ordering (page page_size : Nat) (q : Option String) (s : Store)
    (r : List Note) (hr : list_notes page page_size q false s = .ok r) :
    r.Pairwise (fun a b => b.created_at ≤ a.created_at) ∧
    ∀ t : Nat, (r.filter (fun m => m.created_at == t)).Sublist
      (s.filter (fun m => m.created_at == t)) := by
  obtain ⟨h1, h2, h3, hrw⟩ := list_notes_ok_inv hr
  subst hrw
  have hsub : (((sortDesc (applyQuery q s)).drop
      ((page - 1) * page_size)).take page_size).Sublist
      (sortDesc (applyQuery q s)) :=
    (List.take_sublist _ _).trans (List.drop_sublist _ _)
  constructor
  · exact List.Pairwise.sublist hsub (sortDesc_pairwise (applyQuery q s))
  · intro t
    have h4 := List.Sublist.filter (fun m => m.created_at == t) hsub
    rw [filter_sortDesc] at h4
    exact h4.trans
      (List.Sublist.filter _ (applyQuery_sublist q s))

theorem C7_ordering_witness :
    ([⟨3, "c", "z", 9, 9⟩, ⟨1, "a", "x", 5, 5⟩,
      ⟨2, "b", "y", 5, 5⟩] : List Note).Pairwise
      (fun a b => b.created_at ≤ a.created_at) ∧
    ∀ t : Nat,
      (([⟨3, "c", "z", 9, 9⟩, ⟨1, "a", "x", 5, 5⟩,
        ⟨2, "b", "y", 5, 5⟩] : List Note).filter
          (fun m => m.created_at == t)).Sublist
        (([⟨1, "a", "x", 5, 5⟩, ⟨2, "b", "y", 5, 5⟩,
          ⟨3, "c", "z", 9, 9⟩] : List Note).filter
          (fun m => m.created_at == t)) :=
  C7_ordering 1 10 none
    [⟨1, "a", "x", 5, 5⟩, ⟨2, "b", "y", 5, 5⟩, ⟨3, "c", "z", 9, 9⟩]
    [⟨3, "c", "z", 9, 9⟩, ⟨1, "a", "x", 5, 5⟩, ⟨2, "b", "y", 5, 5⟩]
    (by decide)

/-- Unfolding of the `WHERE` clause for a present query. -/
theorem applyQuery_some (q : String) (s : Store) :
    applyQuery (some q) s =
      if q.isEmpty = true then s else s.filter (matchesQuery q) := rfl

/-- C1 counterexample: the search string is interpolated into a `LIKE`
pattern without escaping, so `q = "%"` (a wildcard) matches a note whose
title and content do not contain `"%"` at all. -/
theorem C1_counterexample :
    list_notes 1 10 (some "%") false [⟨1, "a", "b", 0, 0⟩] =
      .ok [⟨1, "a", "b", 0, 0⟩] ∧
    ¬ specMatches "%" ⟨1, "a", "b", 0, 0⟩ ∧
    "%" ≠ "" := by
  refine ⟨by decide, by decide, by decide⟩

/-- C1 (amended): for every search string `q` containing no SQL `LIKE`
wildcard (`%` or `_`), every note served for query `q` has `q` as a
case-insensitive substring of its title or content, every note of the
store matching `q` this way is served on some page, and the empty query
behaves exactly like an absent query (unfiltered results). -/
theorem C1_search_filter (q : String) (page page_size : Nat) (s : Store)
    (hw : noWildcard q.data) (r : List Note)
    (hr : list_notes page page_size (some q) false s = .ok r) :
    (∀ n ∈ r, specMatches q n) ∧
    (∀ n ∈ s, specMatches q n →
      ∃ p r', 1 ≤ p ∧
        list_notes p page_size (some q) false s = .ok r' ∧ n ∈ r') ∧
    (∀ (p k : Nat) (s' : Store),
      list_notes p k (some "") false s' = list_notes p k none false s') := by
  obtain ⟨h1, h2, h3, hrw⟩ := list_notes_ok_inv hr
  refine ⟨?_, ?_, ?_⟩
  · intro n hn
    rw [hrw] at hn
    have hnL : n ∈ sortDesc (applyQuery (some q) s) :=
      ((List.take_sublist _ _).trans (List.drop_sublist _ _)).subset hn
    have hnA : n ∈ applyQuery (some q) s :=
      (sortDesc_perm (applyQuery (some q) s)).subset hnL
    rw [applyQuery_some] at hnA
    by_cases hq : q.isEmpty = true
    · rw [(String.isEmpty_iff q).mp hq]
      exact specMatches_empty n
    · rw [if_neg hq] at hnA
      exact (matchesQuery_iff hw n).mp (List.mem_filter.mp hnA).2
  · intro n hn hm
    have hnA : n ∈ applyQuery (some q) s := by
      rw [applyQuery_some]
      by_cases hq : q.isEmpty = true
      · rw [if_pos hq]
        exact hn
      · rw [if_neg hq]
        exact List.mem_filter.mpr ⟨hn, (matchesQuery_iff hw n).mpr hm⟩
    have hnL : n ∈ sortDesc (applyQuery (some q) s) :=
      (sortDesc_perm (applyQuery (some q) s)).symm.subset hnA
    obtain ⟨p, hp, hmem⟩ := mem_page page_size h2 _ n hnL
    exact ⟨p, _, hp, list_notes_ok (some q) s hp h2 h3, hmem⟩
  · intro p k s'
    rfl

theorem C1_search_filter_witness :
    (∀ n ∈ ([⟨1, "xFOOy", "c", 0, 0⟩] : List Note),
      specMatches "foo" n) ∧
    (∀ n ∈ ([⟨1, "xFOOy", "c", 0, 0⟩] : Store), specMatches "foo" n →
      ∃ p r', 1 ≤ p ∧
        list_notes p 10 (some "foo") false [⟨1, "xFOOy", "c", 0, 0⟩] =
          .ok r' ∧ n ∈ r') ∧
    (∀ (p k : Nat) (s' : Store),
      list_notes p k (some "") false s' = list_notes p k none false s') :=
  C1_search_filter "foo" 1 10 [⟨1, "xFOOy", "c", 0, 0⟩] (by decide)
    [⟨1, "xFOOy", "c", 0, 0⟩] (by decide)

/-- C5 counterexample: pydantic's `min_length` counts raw characters —
nothing is trimmed — so a whitespace-only title (trimmed length 0) is
accepted and the note is persisted, contradicting the claimed rejection. -/
theorem C5_counterexample :
    trimmedLength " " = 0 ∧
    create_note " " "x" 7 false [] =
      (.ok ⟨1, " ", "x", 7, 7⟩, [⟨1, " ", "x", 7, 7⟩]) := by decide

/-- C5 (amended): validation uses raw (untrimmed) lengths: a title of
length 0 or above 255, or a content of length 0, is rejected with a 422
error naming the offending field and nothing is persisted (the store is
unchanged); whitespace-only fields pass.  Consequently a note with empty
(`""`) title or content is never persisted by create, update or
delete. -/
theorem C5_create_validation (title content : String) (now : Nat)
    (fail : Bool) (s : Store) :
    (title.length = 0 →
      create_note title content now fail s = (.error ⟨422, "title"⟩, s)) ∧
    (255 < title.length →
      create_note title content now fail s = (.error ⟨422, "title"⟩, s)) ∧
    (1 ≤ title.length → title.length ≤ 255 → content.length = 0 →
      create_note title content now fail s =
        (.error ⟨422, "content"⟩, s)) ∧
    ((∀ m ∈ s, m.title ≠ "" ∧ m.content ≠ "") →
      ∀ n ∈ (create_note title content now fail s).2,
        n.title ≠ "" ∧ n.content ≠ "") ∧
    (∀ (id : Nat) (t c : Option String),
      (∀ m ∈ s, m.title ≠ "" ∧ m.content ≠ "") →
      ∀ n ∈ (update_note id t c now fail s).2,
        n.title ≠ "" ∧ n.content ≠ "") ∧
    (∀ id : Nat, (∀ m ∈ s, m.title ≠ "" ∧ m.content ≠ "") →
      ∀ n ∈ (delete_note id fail s).2,
        n.title ≠ "" ∧ n.content ≠ "") := by
  refine ⟨?_, ?_, ?_, ?_, ?_, ?_⟩
  · intro h
    unfold create_note validateNoteCreate
    rw [if_pos (by omega)]
  · intro h
    unfold create_note validateNoteCreate
    rw [if_neg (by omega), if_pos h]
  · intro ht1 ht2 hc
    unfold create_note validateNoteCreate
    rw [if_neg (by omega), if_neg (by omega), if_pos (by omega)]
  · intro hinv n hn
    cases hv : validateNoteCreate title content with
    | some f =>
      unfold create_note at hn
      rw [hv] at hn
      exact hinv n hn
    | none =>
      by_cases hf : fail = true
      · unfold create_note at hn
        rw [hv, if_pos hf] at hn
        exact hinv n hn
      · have hf' : fail = false := by
          cases fail
          · rfl
          · exact absurd rfl hf
        subst hf'
        rw [create_note_ok hv] at hn
        rcases List.mem_append.mp hn with h' | h'
        · exact hinv n h'
        · have hn' : n = ⟨nextId s, title, content, now, now⟩ := by
            simpa using h'
          subst hn'
          obtain ⟨ht, _, hc⟩ := validateNoteCreate_none hv
          exact ⟨ne_empty_of_length_pos ht, ne_empty_of_length_pos hc⟩
  · intro id t c hinv n hn
    by_cases hv : validateNoteUpdate t c = true
    · cases hfind : s.find? (fun m => m.id == id) with
      | none =>
        unfold update_note at hn
        rw [hv] at hn
        simp only [Bool.not_true, Bool.false_eq_true, if_false] at hn
        rw [hfind] at hn
        exact hinv n hn
      | some m0 =>
        rw [update_note_found hv hfind] at hn
        by_cases hno : (t.isNone && c.isNone) = true
        · rw [if_pos hno] at hn
          exact hinv n hn
        · rw [if_neg hno] at hn
          by_cases hf : fail = true
          · rw [if_pos hf] at hn
            exact hinv n hn
          · rw [if_neg hf] at hn
            obtain ⟨m, hm, heq⟩ := List.mem_map.mp hn
            by_cases hid : (m.id == m0.id) = true
            · rw [if_pos hid] at heq
              subst heq
              constructor
              · cases t with
                | none =>
                  exact (hinv m0 (List.mem_of_find?_eq_some hfind)).1
                | some tt =>
                  exact ne_empty_of_length_pos
                    (validateNoteUpdate_some_title hv).1
              · cases c with
                | none =>
                  exact (hinv m0 (List.mem_of_find?_eq_some hfind)).2
                | some cc =>
                  exact ne_empty_of_length_pos
                    (validateNoteUpdate_some_content hv)
            · rw [if_neg hid] at heq
              subst heq
              exact hinv m hm
    · have hv' : validateNoteUpdate t c = false := by
        cases h : validateNoteUpdate t c
        · rfl
        · exact absurd h hv
      unfold update_note at hn
      rw [hv'] at hn
      simp only [Bool.not_false, if_true] at hn
      exact hinv n hn
  · intro id hinv n hn
    cases hfind : s.find? (fun m => m.id == id) with
    | none =>
      unfold delete_note at hn
      rw [hfind] at hn
      exact hinv n hn
    | some m0 =>
      rw [delete_note_found hfind] at hn
      by_cases hf : fail = true
      · rw [if_pos hf] at hn
        exact hinv n hn
      · rw [if_neg hf] at hn
        exact hinv n ((List.filter_sublist s).subset hn)

theorem C5_create_validation_witness :
    create_note "" "x" 4 false [] = (.error ⟨422, "title"⟩, []) ∧
    create_note (String.mk (List.replicate 256 'a')) "x" 4 false [] =
      (.error ⟨422, "title"⟩, []) ∧
    create_note "a" "" 4 false [] = (.error ⟨422, "content"⟩, []) ∧
    (∀ n ∈ (create_note "a" "b" 4 false []).2,
      n.title ≠ "" ∧ n.content ≠ "") ∧
    (∀ n ∈ (update_note 1 (some "t") none 4 false
        [⟨1, "a", "b", 0, 0⟩]).2, n.title ≠ "" ∧ n.content ≠ "") ∧
    (∀ n ∈ (delete_note 1 false [⟨1, "a", "b", 0, 0⟩]).2,
      n.title ≠ "" ∧ n.content ≠ "") :=
  ⟨(C5_create_validation "" "x" 4 false []).1 rfl,
   (C5_create_validation (String.mk (List.replicate 256 'a')) "x" 4 false
     []).2.1 (by
       have h : (String.mk (List.replicate 256 'a')).length = 256 := by
         show (List.replicate 256 'a').length = 256
         rw [List.length_replicate]
       omega),
   (C5_create_validation "a" "" 4 false []).2.2.1 (by decide) (by decide)
     rfl,
   (C5_create_validation "a" "b" 4 false []).2.2.2.1 (by simp),
   (C5_create_validation "a" "b" 4 false [⟨1, "a", "b", 0, 0⟩]).2.2.2.2.1
     1 (some "t") none (by decide),
   (C5_create_validation "a" "b" 4 false [⟨1, "a", "b", 0, 0⟩]).2.2.2.2.2
     1 (by decide)⟩

end NotesApp
